import Mathlib

/-!
Verification of the volumetric raycasting core (`src/render/renderer.cpp`,
`src/render/render_config.h`).

The C++ code is shallowly embedded over exact rationals: `float` becomes `ℚ`,
`glm::vec3`/`glm::vec4` become record types, and the per-pixel tracer loops
become folds over the list of sample parameters `tmin, tmin + step, …`.
Computations that are not total over the rationals are modelled explicitly:

* `ratSqrt` is an exact square root on `ℚ` (it agrees with the float `sqrt`
  on perfect squares, which is all any theorem below evaluates it on);
* `fpow` models `std::pow` on the nonnegative integer exponents the renderer
  uses for the Phong specular term;
* the 1D transfer-function lookup gets two embeddings: `tfIndexOpt`, which
  returns `none` exactly where the C++ computation is not well defined
  (division by a zero `tfColorMapIndexRange`, or an out-of-range
  `float → size_t` conversion of a value `≤ -1`), and the total `tfIndexNat`
  used inside the tracers, which agrees with `tfIndexOpt` wherever the
  latter is defined (`tfIndexOpt_eq_some`).
-/

/-- Embedding of `glm::vec3` with exact rational components. -/
structure Vec3 where
  x : ℚ
  y : ℚ
  z : ℚ

/-- Embedding of `glm::vec4` (RGBA color) with exact rational components. -/
structure Vec4 where
  r : ℚ
  g : ℚ
  b : ℚ
  a : ℚ

/-- Componentwise addition of 3-vectors. -/
def Vec3.add (u v : Vec3) : Vec3 := ⟨u.x + v.x, u.y + v.y, u.z + v.z⟩

/-- Componentwise subtraction of 3-vectors. -/
def Vec3.sub (u v : Vec3) : Vec3 := ⟨u.x - v.x, u.y - v.y, u.z - v.z⟩

/-- Scalar multiple of a 3-vector. -/
def Vec3.smul (c : ℚ) (v : Vec3) : Vec3 := ⟨c * v.x, c * v.y, c * v.z⟩

/-- Negation of a 3-vector. -/
def Vec3.neg (v : Vec3) : Vec3 := ⟨-v.x, -v.y, -v.z⟩

/-- Dot product of 3-vectors (`glm::dot`). -/
def Vec3.dot (u v : Vec3) : ℚ := u.x * v.x + u.y * v.y + u.z * v.z

/-- Componentwise addition of 4-vectors. -/
def Vec4.add (u v : Vec4) : Vec4 := ⟨u.r + v.r, u.g + v.g, u.b + v.b, u.a + v.a⟩

/-- Scalar multiple of a 4-vector. -/
def Vec4.smul (c : ℚ) (v : Vec4) : Vec4 := ⟨c * v.r, c * v.g, c * v.b, c * v.a⟩

/-- `glm::mix(x, y, w) = x*(1-w) + y*w`, componentwise on 4-vectors. -/
def Vec4.mix (u v : Vec4) (w : ℚ) : Vec4 :=
  Vec4.add (Vec4.smul (1 - w) u) (Vec4.smul w v)

/-- `glm::mix(x, y, w) = x*(1-w) + y*w`, componentwise on 3-vectors. -/
def Vec3.mix (u v : Vec3) (w : ℚ) : Vec3 :=
  Vec3.add (Vec3.smul (1 - w) u) (Vec3.smul w v)

/-- Exact rational square root: returns the nonnegative square root when the
argument is a perfect rational square, and `0` otherwise.  It agrees with the
float `sqrt` on the perfect squares, which is all the theorems below evaluate
it on. -/
def ratSqrt (q : ℚ) : ℚ :=
  let r : ℚ := (Nat.sqrt q.num.toNat : ℚ) / (Nat.sqrt q.den : ℚ)
  if r * r = q then r else 0

/-- Embedding of `glm::normalize`: scale by the reciprocal of the length.
(`normalize` of the zero vector is NaN in floats; here it collapses to the
zero vector, and every use below either avoids that case or is insensitive
to it.) -/
def vnormalize (v : Vec3) : Vec3 := Vec3.smul (1 / ratSqrt (Vec3.dot v v)) v

/-- Embedding of `glm::reflect(I, N) = I - 2·dot(N,I)·N`. -/
def reflectVec (i n : Vec3) : Vec3 := Vec3.sub i (Vec3.smul (2 * Vec3.dot n i) n)

/-- `glm::clamp` on rationals. -/
def clampQ (v lo hi : ℚ) : ℚ := min (max v lo) hi

/-- Embedding of `glm::smoothstep(edge0, edge1, x)`. -/
def smoothstepQ (edge0 edge1 x : ℚ) : ℚ :=
  let t := clampQ ((x - edge0) / (edge1 - edge0)) 0 1
  t * t * (3 - 2 * t)

/-- Model of `std::pow` for the renderer's specular exponent: exact for a
nonnegative integer exponent (the only exponents the configs below use);
unspecified (0) otherwise. -/
def fpow (x e : ℚ) : ℚ := if 0 ≤ e.num ∧ e.den = 1 then x ^ e.num.toNat else 0

/-- Truncation toward zero of a rational, as performed by a C
float-to-integer conversion on its well-defined domain. -/
def ratTrunc (x : ℚ) : ℤ := if 0 ≤ x then ⌊x⌋ else -⌊-x⌋

/-- Embedding of `volume::Volume`: a trilinear-interpolated scalar query plus
the precomputed global maximum (`m_pVolume->getSampleInterpolate`,
`m_pVolume->maximum`). -/
structure Volume where
  sample : Vec3 → ℚ
  maximum : ℚ

/-- Embedding of `volume::GradientVoxel`: a gradient direction and its
magnitude. -/
structure GradientVoxel where
  dir : Vec3
  magnitude : ℚ

/-- Embedding of `volume::GradientVolume`: interpolated gradient query plus
the precomputed min/max gradient magnitude. -/
structure GradientVolume where
  sample : Vec3 → GradientVoxel
  minMagnitude : ℚ
  maxMagnitude : ℚ

/-- Embedding of the camera interface used by the tracers
(`m_pCamera->position()`). -/
structure Camera where
  position : Vec3

/-- Embedding of `Ray`: origin, direction and the mutable interval
`[tmin, tmax]` written by the bounds intersection. -/
structure Ray where
  origin : Vec3
  direction : Vec3
  tmin : ℚ
  tmax : ℚ

/-- Embedding of `Bounds`: the two corners `lowerUpper[0]`/`lowerUpper[1]` of
the axis-aligned box. -/
structure Bounds where
  lower : Vec3
  upper : Vec3

/-- Embedding of `render::RenderConfig` (the fields the tracers read; the
256-entry LUT `tfColorMap` is a function from `Fin 256`). -/
structure RenderConfig where
  volumeShading : Bool
  smoothstep : Bool
  isoValue : ℚ
  gamma : ℚ
  ka : ℚ
  kd : ℚ
  ks : ℚ
  alpha : ℚ
  gl : ℚ
  gh : ℚ
  tfColorMap : Fin 256 → Vec4
  tfColorMapIndexStart : ℚ
  tfColorMapIndexRange : ℚ
  TF2DIntensity : ℚ
  TF2DRadius : ℚ
  TF2DColor : Vec4

/-- The index computation of `Renderer::getTFValue`, with its partiality made
explicit: `none` when the C++ computation is not well defined, namely when
`tfColorMapIndexRange = 0` (float division by zero produces a non-finite
`range01`) or when `range01 * 256 ≤ -1` (the truncated value is a negative
integer, so the `float → size_t` conversion is undefined behavior). -/
def tfIndexOpt (cfg : RenderConfig) (val : ℚ) : Option ℕ :=
  if cfg.tfColorMapIndexRange = 0 then none
  else
    let x := (val - cfg.tfColorMapIndexStart) / cfg.tfColorMapIndexRange * 256
    if x ≤ -1 then none
    else some (min (ratTrunc x).toNat 255)

/-- Total version of the `Renderer::getTFValue` index computation
(`min(size_t(range01 * tfColorMap.size()), tfColorMap.size() - 1)`), used
inside the tracer embeddings.  It agrees with `tfIndexOpt` wherever the
latter is defined (`tfIndexOpt_eq_some`). -/
def tfIndexNat (cfg : RenderConfig) (val : ℚ) : ℕ :=
  min (ratTrunc ((val - cfg.tfColorMapIndexStart) / cfg.tfColorMapIndexRange * 256)).toNat 255

/-- Embedding of `Renderer::getTFValue` (total model, used by the tracers). -/
def getTFValue (cfg : RenderConfig) (val : ℚ) : Vec4 :=
  cfg.tfColorMap ⟨tfIndexNat cfg val,
    by unfold tfIndexNat; exact Nat.lt_succ_of_le (Nat.min_le_right _ 255)⟩

/-- Embedding of `Renderer::getTFValue` with the partiality of the index
computation made explicit (`none` = non-finite intermediate / UB). -/
def getTFValueOpt (cfg : RenderConfig) (val : ℚ) : Option Vec4 :=
  (tfIndexOpt cfg val).map fun i =>
    cfg.tfColorMap ⟨min i 255, Nat.lt_succ_of_le (Nat.min_le_right i 255)⟩

/-- Modelled from the spec: the clamped index formula
`clamp((value − start)/range × 256, 0, 255)` that section 3 of the spec
claims `getTFValue` computes (truncating the scaled value to an integer and
clamping to `[0, 255]`). -/
def specClampIndex (cfg : RenderConfig) (val : ℚ) : ℕ :=
  (min (max (ratTrunc ((val - cfg.tfColorMapIndexStart) / cfg.tfColorMapIndexRange * 256)) 0) 255).toNat

/-- Embedding of `Renderer::getTF2DOpacity`: triangular tent classification
of an (intensity, gradient magnitude) pair. -/
def getTF2DOpacity (cfg : RenderConfig) (gvol : GradientVolume)
    (intensity gradientMagnitude : ℚ) : ℚ :=
  let apexIntensity := cfg.TF2DIntensity
  let apexGradientMagnitude := gvol.minMagnitude
  let baseIntensity1 := apexIntensity - cfg.TF2DRadius
  let baseIntensity2 := apexIntensity + cfg.TF2DRadius
  let baseGradientMagnitude := gvol.maxMagnitude
  let m1 := (apexGradientMagnitude - baseGradientMagnitude) / (apexIntensity - baseIntensity1)
  let q1 := apexGradientMagnitude - m1 * apexIntensity
  let m2 := (apexGradientMagnitude - baseGradientMagnitude) / (apexIntensity - baseIntensity2)
  let q2 := apexGradientMagnitude - m2 * apexIntensity
  if m1 * intensity + q1 < gradientMagnitude ∧ m2 * intensity + q2 < gradientMagnitude ∧
      gradientMagnitude < baseGradientMagnitude ∧
      baseIntensity1 < intensity ∧ intensity < baseIntensity2 then
    let projection := if intensity < apexIntensity
      then (gradientMagnitude - q1) / m1
      else (gradientMagnitude - q2) / m2
    let distancefromApex := |projection - apexIntensity|
    1 - |intensity - apexIntensity| / distancefromApex
  else 0

/-- Embedding of `Renderer::computePhongShading`.  The source's
`glm::any(glm::isnan(diffuse))` guard fires exactly when the gradient
direction is the zero vector (normalizing it yields NaN); the embedding
tests that condition directly. -/
def computePhongShading (color : Vec3) (gradient : GradientVoxel) (L V : Vec3)
    (ka kd ks alpha : ℚ) : Vec3 :=
  let ambient := Vec3.smul ka color
  let cosTheta := Vec3.dot (vnormalize gradient.dir) L
  let diffuse := if gradient.dir.x = 0 ∧ gradient.dir.y = 0 ∧ gradient.dir.z = 0
    then ⟨0, 0, 0⟩
    else Vec3.smul (kd * |cosTheta|) color
  let cosPhi := Vec3.dot (vnormalize (reflectVec L gradient.dir)) V
  let specular := Vec3.smul (ks * fpow |cosPhi| alpha) ⟨1, 1, 1⟩
  Vec3.add (Vec3.add ambient diffuse) specular

/-- The light vector used by the composite, MIDA, combined and shaded
isosurface tracers: `L = glm::normalize(samplePos - ray.origin)`. -/
def shadeL (origin samplePos : Vec3) : Vec3 := vnormalize (Vec3.sub samplePos origin)

/-- Position on a ray at parameter `t`: `ray.origin + t * ray.direction`
(the incremental `samplePos += increment` of the source is exact here). -/
def rayAt (r : Ray) (t : ℚ) : Vec3 := Vec3.add r.origin (Vec3.smul t r.direction)

/-- Number of iterations of `for (float t = tmin; t <= tmax; t += step)` in
exact arithmetic, i.e. the number of `k ≥ 0` with `tmin + k*step ≤ tmax`
(for a positive step; the renderer always passes `sampleStep = 1`). -/
def sampleCount (tmin tmax step : ℚ) : ℕ :=
  if 0 < step ∧ tmin ≤ tmax then (⌊(tmax - tmin) / step⌋ + 1).toNat else 0

/-- The list of sample parameters `tmin, tmin + step, …` visited by the
shared tracer loop. -/
def sampleTs (tmin tmax step : ℚ) : List ℚ :=
  (List.range (sampleCount tmin tmax step)).map fun k => tmin + (k : ℚ) * step

/-- The per-sample shaded color of `traceRayMIDA`/`traceRayCombined` (the
volume-shading + smoothstep block, duplicated verbatim at
renderer.cpp:208-230 and renderer.cpp:283-305). -/
def sampleFinalColor (cfg : RenderConfig) (gvol : GradientVolume) (cam : Camera)
    (r : Ray) (samplePos : Vec3) (tfColor : Vec3) : Vec3 :=
  if cfg.volumeShading then
    let gradient := gvol.sample samplePos
    let V := vnormalize (Vec3.sub cam.position samplePos)
    let L := shadeL r.origin samplePos
    let phongShading := computePhongShading tfColor gradient L V cfg.ka cfg.kd cfg.ks cfg.alpha
    if cfg.smoothstep then
      let weight := smoothstepQ (cfg.gl * gvol.maxMagnitude) (cfg.gh * gvol.maxMagnitude)
        gradient.magnitude
      Vec3.mix tfColor phongShading weight
    else phongShading
  else tfColor

/-- Loop state of `traceRayMIDA`/`traceRayCombined`: the running maximum and
the accumulated color and opacity. -/
structure MState where
  maxVal : ℚ
  color : Vec4
  opacity : ℚ

/-- Initial loop state of the MIDA/combined tracers. -/
def midaInit : MState := ⟨0, ⟨0, 0, 0, 0⟩, 0⟩

/-- One loop iteration of `traceRayMIDA` (renderer.cpp:196-246). -/
def midaStep (cfg : RenderConfig) (vol : Volume) (gvol : GradientVolume) (cam : Camera)
    (r : Ray) (s : MState) (t : ℚ) : MState :=
  let samplePos := rayAt r t
  let val := vol.sample samplePos
  let normalizedVal := val / vol.maximum
  let normalizedMaxVal := s.maxVal / vol.maximum
  let tfValue := getTFValue cfg val
  let tfColor : Vec3 := ⟨tfValue.r, tfValue.g, tfValue.b⟩
  let tfOpacity := tfValue.a
  let finalColor := sampleFinalColor cfg gvol cam r samplePos tfColor
  let delta := if s.maxVal < val then normalizedVal - normalizedMaxVal else 0
  let beta := 1 - delta
  { maxVal := max val s.maxVal
    color := Vec4.add (Vec4.smul beta s.color)
      (Vec4.smul ((1 - beta * s.opacity) * tfOpacity) ⟨finalColor.x, finalColor.y, finalColor.z, 1⟩)
    opacity := beta * s.opacity + (1 - beta * s.opacity) * tfOpacity }

/-- One loop iteration of `traceRayCombined` (renderer.cpp:271-325); it
differs from `midaStep` only in the `beta` computation, which is modulated
by `gamma`. -/
def combinedStep (cfg : RenderConfig) (vol : Volume) (gvol : GradientVolume) (cam : Camera)
    (r : Ray) (s : MState) (t : ℚ) : MState :=
  let samplePos := rayAt r t
  let val := vol.sample samplePos
  let normalizedVal := val / vol.maximum
  let normalizedMaxVal := s.maxVal / vol.maximum
  let tfValue := getTFValue cfg val
  let tfColor : Vec3 := ⟨tfValue.r, tfValue.g, tfValue.b⟩
  let tfOpacity := tfValue.a
  let finalColor := sampleFinalColor cfg gvol cam r samplePos tfColor
  let delta := if s.maxVal < val then normalizedVal - normalizedMaxVal else 0
  let beta := if cfg.gamma ≤ 0 then 1 - delta * (1 + cfg.gamma) else 1 - delta
  { maxVal := max val s.maxVal
    color := Vec4.add (Vec4.smul beta s.color)
      (Vec4.smul ((1 - beta * s.opacity) * tfOpacity) ⟨finalColor.x, finalColor.y, finalColor.z, 1⟩)
    opacity := beta * s.opacity + (1 - beta * s.opacity) * tfOpacity }

/-- Loop state of `traceRayMIDA` after the first `k` iterations. -/
def midaStates (cfg : RenderConfig) (vol : Volume) (gvol : GradientVolume) (cam : Camera)
    (r : Ray) (step : ℚ) (k : ℕ) : MState :=
  ((sampleTs r.tmin r.tmax step).take k).foldl (midaStep cfg vol gvol cam r) midaInit

/-- Embedding of `Renderer::traceRayMIDA` (renderer.cpp:179-251). -/
def traceRayMIDA (cfg : RenderConfig) (vol : Volume) (gvol : GradientVolume) (cam : Camera)
    (r : Ray) (step : ℚ) : Vec4 :=
  ((sampleTs r.tmin r.tmax step).foldl (midaStep cfg vol gvol cam r) midaInit).color

/-- Embedding of `Renderer::traceRayCombined` (renderer.cpp:254-334): the
MIDA-style accumulation with gamma-modulated `beta`, followed by a blend
toward the normalized running maximum when `gamma > 0`. -/
def traceRayCombined (cfg : RenderConfig) (vol : Volume) (gvol : GradientVolume) (cam : Camera)
    (r : Ray) (step : ℚ) : Vec4 :=
  let final := (sampleTs r.tmin r.tmax step).foldl (combinedStep cfg vol gvol cam r) midaInit
  if cfg.gamma ≤ 0 then final.color
  else
    let m := final.maxVal / vol.maximum
    Vec4.mix final.color ⟨m, m, m, 1⟩ cfg.gamma

/-- Loop state of `traceRayComposite`: accumulated color and opacity, plus
the early-exit flag (`if (accumulatedOpacity >= 1.0f) break`). -/
structure CState where
  color : Vec4
  opacity : ℚ
  done : Bool

/-- Initial loop state of the composite tracer. -/
def compositeInit : CState := ⟨⟨0, 0, 0, 0⟩, 0, false⟩

/-- One loop iteration of `traceRayComposite` (renderer.cpp:506-533); once
the early-exit break has fired the state is left unchanged. -/
def compositeStep (cfg : RenderConfig) (vol : Volume) (gvol : GradientVolume) (cam : Camera)
    (r : Ray) (s : CState) (t : ℚ) : CState :=
  if s.done then s
  else
    let samplePos := rayAt r t
    let val := vol.sample samplePos
    let tfValue := getTFValue cfg val
    let tfColor0 : Vec3 := ⟨tfValue.r, tfValue.g, tfValue.b⟩
    let tfOpacity := tfValue.a
    let tfColor := if cfg.volumeShading then
        let precisePos := rayAt r t
        let gradient := gvol.sample precisePos
        let V := vnormalize (Vec3.sub cam.position precisePos)
        let L := shadeL r.origin precisePos
        computePhongShading tfColor0 gradient L V cfg.ka cfg.kd cfg.ks cfg.alpha
      else tfColor0
    let opacity := s.opacity + (1 - s.opacity) * tfOpacity
    { color := Vec4.add s.color
        (Vec4.smul ((1 - s.opacity) * tfOpacity) ⟨tfColor.x, tfColor.y, tfColor.z, 1⟩)
      opacity := opacity
      done := decide (1 ≤ opacity) }

/-- Loop state of `traceRayComposite` after the first `k` iterations. -/
def compositeStates (cfg : RenderConfig) (vol : Volume) (gvol : GradientVolume) (cam : Camera)
    (r : Ray) (step : ℚ) (k : ℕ) : CState :=
  ((sampleTs r.tmin r.tmax step).take k).foldl (compositeStep cfg vol gvol cam r) compositeInit

/-- Embedding of `Renderer::traceRayComposite` (renderer.cpp:491-537). -/
def traceRayComposite (cfg : RenderConfig) (vol : Volume) (gvol : GradientVolume) (cam : Camera)
    (r : Ray) (step : ℚ) : Vec4 :=
  ((sampleTs r.tmin r.tmax step).foldl (compositeStep cfg vol gvol cam r) compositeInit).color

/-- The fixed yellow-green surface color of `Renderer::traceRayISO`
(`R = 0.8, G = 0.8, B = 0.0`). -/
def isoSurfaceColor : Vec3 := ⟨8/10, 8/10, 0⟩

/-- The cleared framebuffer color (`Renderer::resetImage` fills the buffer
with `glm::vec4(0.0f)`): transparent black. -/
def backgroundColor : Vec4 := ⟨0, 0, 0, 0⟩

/-- The `res` flag of the unshaded branch of `traceRayISO`
(renderer.cpp:362-378): `1` as soon as a sample exceeds the isovalue (the
loop breaks there), `0` if no sample does. -/
def isoRes (vol : Volume) (iso : ℚ) (r : Ray) : List ℚ → ℚ
  | [] => 0
  | t :: ts => if iso < vol.sample (rayAt r t) then 1 else isoRes vol iso r ts

/-- One round of the `if (std::abs(fc - isoValue) < precision || std::abs(b - a) < precision)`
stopping test of `Renderer::bisectionAccuracy` (renderer.cpp:442), on the
interval `p` about to be bisected. -/
def bisectStop (f : ℚ → ℚ) (iso : ℚ) (p : ℚ × ℚ) : Prop :=
  |f ((p.1 + p.2) / 2) - iso| < 1/100 ∨ |p.2 - p.1| < 1/100

instance (f : ℚ → ℚ) (iso : ℚ) (p : ℚ × ℚ) : Decidable (bisectStop f iso p) := by
  unfold bisectStop; infer_instance

/-- The interval narrowing of `Renderer::bisectionAccuracy`
(renderer.cpp:447-451): keep the half in which the isovalue must lie. -/
def bisectStep (f : ℚ → ℚ) (iso : ℚ) (p : ℚ × ℚ) : ℚ × ℚ :=
  let c := (p.1 + p.2) / 2
  if f c < iso then (c, p.2) else (p.1, c)

/-- The bisection loop with `fuel` remaining iterations.  Each iteration
computes the midpoint `c`; it is returned when the stopping test fires or
when this was the last iteration (`fuel = 1`), otherwise the search recurses
on the narrowed interval.  (`fuel = 0` is never reached from the top-level
call with fuel 30.) -/
def bisectAux (f : ℚ → ℚ) (iso : ℚ) : ℕ → ℚ × ℚ → ℚ
  | 0, p => (p.1 + p.2) / 2
  | n + 1, p =>
    if bisectStop f iso p ∨ n = 0 then (p.1 + p.2) / 2
    else bisectAux f iso n (bisectStep f iso p)

/-- Embedding of `Renderer::bisectionAccuracy` (renderer.cpp:424-455):
30 iterations of bisection over the scalar field sampled along the ray. -/
def bisectionAccuracy (vol : Volume) (r : Ray) (t0 t1 isoValue : ℚ) : ℚ :=
  bisectAux (fun c => vol.sample (rayAt r c)) isoValue 30 (t0, t1)

/-- The shaded branch of `traceRayISO` (renderer.cpp:386-414): find the first
sample interval straddling the isovalue, refine by bisection, Phong-shade the
refined point; black (`vec4(vec3(0), 1)`) if no crossing is found. -/
def isoShadedLoop (cfg : RenderConfig) (vol : Volume) (gvol : GradientVolume) (cam : Camera)
    (r : Ray) (step : ℚ) : List ℚ → Vec4
  | [] => ⟨0, 0, 0, 1⟩
  | t :: ts =>
    let samplePos := rayAt r t
    let val1 := vol.sample samplePos
    let val2 := vol.sample (Vec3.add samplePos (Vec3.smul step r.direction))
    if cfg.isoValue < val1 ∨ cfg.isoValue < val2 then
      let preciseT := bisectionAccuracy vol r t (t + step) cfg.isoValue
      let precisePos := rayAt r preciseT
      let gradient := gvol.sample precisePos
      let V := vnormalize (Vec3.sub cam.position precisePos)
      let L := shadeL r.origin precisePos
      let phongShading := computePhongShading isoSurfaceColor gradient L V
        cfg.ka cfg.kd cfg.ks cfg.alpha
      ⟨phongShading.x, phongShading.y, phongShading.z, 1⟩
    else isoShadedLoop cfg vol gvol cam r step ts

/-- Embedding of `Renderer::traceRayISO` (renderer.cpp:345-419). -/
def traceRayISO (cfg : RenderConfig) (vol : Volume) (gvol : GradientVolume) (cam : Camera)
    (r : Ray) (step : ℚ) : Vec4 :=
  if cfg.volumeShading then
    isoShadedLoop cfg vol gvol cam r step (sampleTs r.tmin r.tmax step)
  else
    let res := isoRes vol cfg.isoValue r (sampleTs r.tmin r.tmax step)
    ⟨isoSurfaceColor.x * res, isoSurfaceColor.y * res, isoSurfaceColor.z * res, 1⟩

/-- One axis of the slab test: the near intersection parameter, using the
corner selected by the sign of the inverse direction component
(`bounds.lowerUpper[sign]`).  Faithful to the float computation only for a
nonzero direction component `d` (then `invDir = 1/d` is finite and exact);
for `d = 0` the float code computes with `±inf` - that case is modelled by
`instersectRayVolumeBoundsIEEE`, which agrees with the rational model on
nonzero components (`instersectIEEE_eq_rational`). -/
def slabNear (d lo hi o : ℚ) : ℚ := ((if 1 / d < 0 then hi else lo) - o) * (1 / d)

/-- One axis of the slab test: the far intersection parameter
(`bounds.lowerUpper[!sign]`).  Same nonzero-component proviso as
`slabNear`. -/
def slabFar (d lo hi o : ℚ) : ℚ := ((if 1 / d < 0 then lo else hi) - o) * (1 / d)

/-- Embedding of `Renderer::instersectRayVolumeBounds` (renderer.cpp:639-663)
over exact rationals, faithful for rays whose direction components are all
nonzero (see `slabNear` and `instersectIEEE_eq_rational`; the general IEEE
model is `instersectRayVolumeBoundsIEEE`).
The C++ function mutates `ray.tmin`/`ray.tmax` on the success path only; the
embedding returns the success flag together with the resulting ray. -/
def instersectRayVolumeBounds (r : Ray) (b : Bounds) : Bool × Ray :=
  let tminx := slabNear r.direction.x b.lower.x b.upper.x r.origin.x
  let tmaxx := slabFar r.direction.x b.lower.x b.upper.x r.origin.x
  let tymin := slabNear r.direction.y b.lower.y b.upper.y r.origin.y
  let tymax := slabFar r.direction.y b.lower.y b.upper.y r.origin.y
  if tymax < tminx ∨ tmaxx < tymin then (false, r)
  else
    let tmin2 := max tminx tymin
    let tmax2 := min tmaxx tymax
    let tzmin := slabNear r.direction.z b.lower.z b.upper.z r.origin.z
    let tzmax := slabFar r.direction.z b.lower.z b.upper.z r.origin.z
    if tzmax < tmin2 ∨ tmax2 < tzmin then (false, r)
    else (true, { r with tmin := max tmin2 tzmin, tmax := min tmax2 tzmax })

/-! Concrete fixtures used by the witness and counterexample theorems. -/

/-- A concrete configuration: the field defaults of `render_config.h`
(slicer-independent fields), a fully transparent 256-entry LUT, and the unit
domain mapping `start = 0, range = 1`. -/
def baseConfig : RenderConfig :=
  { volumeShading := false
    smoothstep := false
    isoValue := 95
    gamma := 0
    ka := 1/10
    kd := 7/10
    ks := 2/10
    alpha := 100
    gl := 1/8
    gh := 1/4
    tfColorMap := fun _ => ⟨0, 0, 0, 0⟩
    tfColorMapIndexStart := 0
    tfColorMapIndexRange := 1
    TF2DIntensity := 1/2
    TF2DRadius := 1/4
    TF2DColor := ⟨1, 1, 1, 1⟩ }

/-- The configuration with a degenerate (zero) 1D transfer-function range. -/
def cfgZeroRange : RenderConfig := { baseConfig with tfColorMapIndexRange := 0 }

/-- A LUT whose bin 0 has opacity 1/2 and whose other bins are fully
transparent. -/
def tfHalfAtZero : Fin 256 → Vec4 := fun i => if i.val = 0 then ⟨0, 0, 0, 1/2⟩ else ⟨0, 0, 0, 0⟩

/-- The base configuration with the `tfHalfAtZero` LUT. -/
def cfgMida : RenderConfig := { baseConfig with tfColorMap := tfHalfAtZero }

/-- A constant-zero volume with maximum 1. -/
def volZero : Volume := ⟨fun _ => 0, 1⟩

/-- A volume that is 0 on the plane `x = 0` and 1 elsewhere, with maximum 1. -/
def volStepX : Volume := ⟨fun p => if p.x = 0 then 0 else 1, 1⟩

/-- A trivial gradient field with magnitude range `[0, 1]`. -/
def gvolUnit : GradientVolume := ⟨fun _ => ⟨⟨0, 0, 0⟩, 0⟩, 0, 1⟩

/-- A camera at the origin. -/
def camO : Camera := ⟨⟨0, 0, 0⟩⟩

/-- A ray along the positive x-axis with traversal interval `[0, 1]`
(two unit-step samples, at `t = 0` and `t = 1`). -/
def rayUnit : Ray := ⟨⟨0, 0, 0⟩, ⟨1, 0, 0⟩, 0, 1⟩

/-- The unit box `[0,1]^3`. -/
def boxUnit : Bounds := ⟨⟨0, 0, 0⟩, ⟨1, 1, 1⟩⟩

/-- A ray that hits `boxUnit`: origin `(-1,-1,-1)`, direction `(1,1,1)`. -/
def rayHit : Ray := ⟨⟨-1, -1, -1⟩, ⟨1, 1, 1⟩, 0, 0⟩

/-- A ray that misses `boxUnit`: its x-slab `[-2,-1]` and y-slab
`[-1/2, 1/2]` are disjoint. -/
def rayMiss : Ray := ⟨⟨2, 1/2, 1/2⟩, ⟨1, -1, 1⟩, 0, 0⟩

/-- Extended rationals modelling the IEEE float values the slab test can
produce from finite, non-NaN inputs: finite values, the two infinities and
NaN.  Finite zero stands for IEEE `+0` (the renderer's ray and bounds fields
are ordinary finite values, and float literal `0.0f` is `+0`). -/
inductive XQ where
  | fin : ℚ → XQ
  | pinf : XQ
  | ninf : XQ
  | nan : XQ
deriving DecidableEq

/-- IEEE `<` on extended values: any comparison involving NaN is false. -/
def XQ.lt : XQ → XQ → Bool
  | .nan, _ => false
  | _, .nan => false
  | .ninf, .ninf => false
  | .ninf, _ => true
  | .pinf, _ => false
  | .fin _, .ninf => false
  | .fin _, .pinf => true
  | .fin a, .fin b => decide (a < b)

/-- IEEE `≤` on extended values: any comparison involving NaN is false. -/
def XQ.le : XQ → XQ → Bool
  | .nan, _ => false
  | _, .nan => false
  | .ninf, _ => true
  | _, .pinf => true
  | .pinf, _ => false
  | .fin _, .ninf => false
  | .fin a, .fin b => decide (a ≤ b)

/-- IEEE multiplication on extended values: NaN propagates, and
`0 * ±inf = NaN`. -/
def XQ.mul : XQ → XQ → XQ
  | .nan, _ => .nan
  | _, .nan => .nan
  | .fin a, .fin b => .fin (a * b)
  | .fin a, .pinf => if 0 < a then .pinf else if a < 0 then .ninf else .nan
  | .fin a, .ninf => if 0 < a then .ninf else if a < 0 then .pinf else .nan
  | .pinf, .fin b => if 0 < b then .pinf else if b < 0 then .ninf else .nan
  | .ninf, .fin b => if 0 < b then .ninf else if b < 0 then .pinf else .nan
  | .pinf, .pinf => .pinf
  | .pinf, .ninf => .ninf
  | .ninf, .pinf => .ninf
  | .ninf, .ninf => .pinf

/-- The inverse-direction component `1.0f / d` under IEEE semantics:
`1 / (+0) = +inf`, otherwise exact. -/
def XQ.inv1 (d : ℚ) : XQ := if d = 0 then .pinf else .fin (1 / d)

/-- `std::max(a, b) = (a < b) ? b : a`, on extended values (so a NaN first
argument is returned unchanged, as in C++). -/
def XQ.cppMax (a b : XQ) : XQ := if XQ.lt a b then b else a

/-- `std::min(a, b) = (b < a) ? b : a`, on extended values (so a NaN first
argument is returned unchanged, as in C++). -/
def XQ.cppMin (a b : XQ) : XQ := if XQ.lt b a then b else a

/-- Embedding of `Renderer::instersectRayVolumeBounds` (renderer.cpp:639-663)
under full IEEE semantics: the inverse direction may be infinite, on-face
origins produce `0 * inf = NaN` slab parameters, and all comparisons and
`std::max`/`std::min` follow the IEEE/NaN rules.  Returns the success flag
together with the `tmin`/`tmax` the function leaves in the ray (the incoming
finite values on a miss, the computed extended values on a hit). -/
def instersectRayVolumeBoundsIEEE (r : Ray) (b : Bounds) : Bool × XQ × XQ :=
  let invx := XQ.inv1 r.direction.x
  let invy := XQ.inv1 r.direction.y
  let invz := XQ.inv1 r.direction.z
  let sx := XQ.lt invx (.fin 0)
  let sy := XQ.lt invy (.fin 0)
  let sz := XQ.lt invz (.fin 0)
  let tminx := XQ.mul (.fin ((if sx then b.upper else b.lower).x - r.origin.x)) invx
  let tmaxx := XQ.mul (.fin ((if sx then b.lower else b.upper).x - r.origin.x)) invx
  let tymin := XQ.mul (.fin ((if sy then b.upper else b.lower).y - r.origin.y)) invy
  let tymax := XQ.mul (.fin ((if sy then b.lower else b.upper).y - r.origin.y)) invy
  if XQ.lt tymax tminx || XQ.lt tmaxx tymin then (false, .fin r.tmin, .fin r.tmax)
  else
    let tmin2 := XQ.cppMax tminx tymin
    let tmax2 := XQ.cppMin tmaxx tymax
    let tzmin := XQ.mul (.fin ((if sz then b.upper else b.lower).z - r.origin.z)) invz
    let tzmax := XQ.mul (.fin ((if sz then b.lower else b.upper).z - r.origin.z)) invz
    if XQ.lt tzmax tmin2 || XQ.lt tmax2 tzmin then (false, .fin r.tmin, .fin r.tmax)
    else (true, XQ.cppMax tmin2 tzmin, XQ.cppMin tmax2 tzmax)

/-- A finite, non-NaN, axis-aligned ray whose origin lies exactly on the
`x = 0` face of `boxUnit` and which passes through the box along `+y`. -/
def rayAxisFace : Ray := ⟨⟨0, -1, 1/2⟩, ⟨0, 1, 0⟩, 0, 0⟩

/-! Theorems. -/

theorem tfIndexOpt_eq_some (cfg : RenderConfig) (val : ℚ)
    (h0 : cfg.tfColorMapIndexRange ≠ 0)
    (h1 : -1 < (val - cfg.tfColorMapIndexStart) / cfg.tfColorMapIndexRange * 256) :
    tfIndexOpt cfg val = some (tfIndexNat cfg val) := by
  simp only [tfIndexOpt, tfIndexNat, if_neg h0, if_neg (not_le.mpr h1)]

/-- Per-axis slab property: with a nonzero direction component and ordered
corners, the near parameter does not exceed the far parameter. -/
theorem slabNear_le_slabFar (d lo hi o : ℚ) (hd : d ≠ 0) (hlh : lo ≤ hi) :
    slabNear d lo hi o ≤ slabFar d lo hi o := by
  unfold slabNear slabFar
  rcases lt_or_gt_of_ne hd with h | h
  · have hinv : 1 / d < 0 := one_div_neg.mpr h
    rw [if_pos hinv, if_pos hinv]
    exact mul_le_mul_of_nonpos_right (by linarith) hinv.le
  · have hinv : 0 < 1 / d := one_div_pos.mpr h
    rw [if_neg (not_lt.mpr hinv.le), if_neg (not_lt.mpr hinv.le)]
    exact mul_le_mul_of_nonneg_right (by linarith) hinv.le

/-- `std::max` on finite values is the usual maximum. -/
theorem cppMax_fin (a b : ℚ) : XQ.cppMax (.fin a) (.fin b) = .fin (max a b) := by
  simp only [XQ.cppMax, XQ.lt, decide_eq_true_eq]
  split_ifs with h
  · rw [max_eq_right h.le]
  · rw [max_eq_left (not_lt.mp h)]

/-- `std::min` on finite values is the usual minimum. -/
theorem cppMin_fin (a b : ℚ) : XQ.cppMin (.fin a) (.fin b) = .fin (min a b) := by
  simp only [XQ.cppMin, XQ.lt, decide_eq_true_eq]
  split_ifs with h
  · rw [min_eq_right h.le]
  · rw [min_eq_left (not_lt.mp h)]

set_option maxHeartbeats 1600000 in
/-- On rays whose direction components are all nonzero, the IEEE model of the
slab test computes no infinity or NaN and coincides with the exact-rational
model `instersectRayVolumeBounds`: same hit/miss answer and the same written
interval. -/
theorem instersectIEEE_eq_rational (r : Ray) (b : Bounds)
    (hx : r.direction.x ≠ 0) (hy : r.direction.y ≠ 0) (hz : r.direction.z ≠ 0) :
    instersectRayVolumeBoundsIEEE r b =
      ((instersectRayVolumeBounds r b).1,
       XQ.fin (instersectRayVolumeBounds r b).2.tmin,
       XQ.fin (instersectRayVolumeBounds r b).2.tmax) := by
  simp only [instersectRayVolumeBoundsIEEE, instersectRayVolumeBounds,
    slabNear, slabFar, XQ.inv1, if_neg hx, if_neg hy, if_neg hz,
    XQ.mul, XQ.lt, cppMax_fin, cppMin_fin, Bool.or_eq_true, decide_eq_true_eq]
  split_ifs <;> simp_all

/-- Counterexample for C8: the finite, non-NaN ray `rayAxisFace` (an
axis-aligned direction with a zero x-component, origin exactly on the box's
`x = 0` face) makes the IEEE slab arithmetic compute `tmin = 0 * inf = NaN`;
every guard comparison against NaN is false, so the function returns `true`
having written `tmin = NaN`, and `tmin ≤ tmax` fails. -/
theorem instersect_nan_counterexample :
    (instersectRayVolumeBoundsIEEE rayAxisFace boxUnit).1 = true ∧
    (instersectRayVolumeBoundsIEEE rayAxisFace boxUnit).2.1 = XQ.nan ∧
    XQ.le (instersectRayVolumeBoundsIEEE rayAxisFace boxUnit).2.1
      (instersectRayVolumeBoundsIEEE rayAxisFace boxUnit).2.2 = false := by
  norm_num [instersectRayVolumeBoundsIEEE, XQ.inv1, XQ.mul, XQ.lt, XQ.le,
    XQ.cppMax, XQ.cppMin, rayAxisFace, boxUnit]

/-- C8 (amended): for every ray whose direction components are all nonzero
and every bounds pair with ordered corners (`lower ≤ upper` componentwise),
whenever `instersectRayVolumeBounds` reports a hit, the interval it writes
into the ray satisfies `tmin ≤ tmax`.  (For a zero direction component with
the origin exactly on the corresponding slab face, the IEEE arithmetic
returns a hit with `tmin = NaN`, falsifying the unrestricted claim - see
`instersect_nan_counterexample`.) -/
theorem instersect_hit_tmin_le_tmax (r : Ray) (b : Bounds)
    (hx : r.direction.x ≠ 0) (hy : r.direction.y ≠ 0) (hz : r.direction.z ≠ 0)
    (hbx : b.lower.x ≤ b.upper.x) (hby : b.lower.y ≤ b.upper.y) (hbz : b.lower.z ≤ b.upper.z)
    (hhit : (instersectRayVolumeBounds r b).1 = true) :
    (instersectRayVolumeBounds r b).2.tmin ≤ (instersectRayVolumeBounds r b).2.tmax := by
  have h1 := slabNear_le_slabFar r.direction.x b.lower.x b.upper.x r.origin.x hx hbx
  have h2 := slabNear_le_slabFar r.direction.y b.lower.y b.upper.y r.origin.y hy hby
  have h3 := slabNear_le_slabFar r.direction.z b.lower.z b.upper.z r.origin.z hz hbz
  simp only [instersectRayVolumeBounds] at hhit ⊢
  split_ifs at hhit ⊢ with hc1 hc2
  dsimp only
  simp only [not_or, not_lt] at hc1 hc2
  obtain ⟨hA, hB⟩ := hc1
  obtain ⟨hC, hD⟩ := hc2
  simp only [max_le_iff, le_min_iff] at hC hD ⊢
  obtain ⟨hC1, hC2⟩ := hC
  obtain ⟨hD1, hD2⟩ := hD
  and_intros <;> linarith

/-- Witness for C8 at a concrete hitting ray. -/
theorem instersect_hit_tmin_le_tmax_witness :
    rayHit.direction.x ≠ 0 ∧ rayHit.direction.y ≠ 0 ∧ rayHit.direction.z ≠ 0 ∧
    boxUnit.lower.x ≤ boxUnit.upper.x ∧ boxUnit.lower.y ≤ boxUnit.upper.y ∧
    boxUnit.lower.z ≤ boxUnit.upper.z ∧
    (instersectRayVolumeBounds rayHit boxUnit).1 = true ∧
    (instersectRayVolumeBounds rayHit boxUnit).2.tmin ≤
      (instersectRayVolumeBounds rayHit boxUnit).2.tmax := by
  have hhit : (instersectRayVolumeBounds rayHit boxUnit).1 = true := by
    norm_num [instersectRayVolumeBounds, slabNear, slabFar, rayHit, boxUnit]
  refine ⟨by norm_num [rayHit], by norm_num [rayHit], by norm_num [rayHit],
    by norm_num [boxUnit], by norm_num [boxUnit], by norm_num [boxUnit], hhit, ?_⟩
  exact instersect_hit_tmin_le_tmax rayHit boxUnit
    (by norm_num [rayHit]) (by norm_num [rayHit]) (by norm_num [rayHit])
    (by norm_num [boxUnit]) (by norm_num [boxUnit]) (by norm_num [boxUnit]) hhit

/-- C10: when `instersectRayVolumeBounds` reports a miss, the ray is returned
exactly as it was passed in - `tmin`/`tmax` are written on the success path
only. -/
theorem instersect_miss_preserves_ray (r : Ray) (b : Bounds)
    (h : (instersectRayVolumeBounds r b).1 = false) :
    (instersectRayVolumeBounds r b).2 = r := by
  simp only [instersectRayVolumeBounds] at h ⊢
  split_ifs at h ⊢ <;> simp_all

/-- Witness for C10 at a concrete missing ray. -/
theorem instersect_miss_preserves_ray_witness :
    (instersectRayVolumeBounds rayMiss boxUnit).1 = false ∧
    (instersectRayVolumeBounds rayMiss boxUnit).2 = rayMiss := by
  have hmiss : (instersectRayVolumeBounds rayMiss boxUnit).1 = false := by
    norm_num [instersectRayVolumeBounds, slabNear, slabFar, rayMiss, boxUnit]
  exact ⟨hmiss, instersect_miss_preserves_ray rayMiss boxUnit hmiss⟩

/-- Unfolding the bisection loop: with `n + 1` iterations of fuel, the loop
returns the midpoint of the interval reached after some `k ≤ n` narrowing
steps; no earlier interval satisfied the stopping test, and the final one
either satisfies it or exhausted the iteration budget. -/
theorem bisectAux_exists (f : ℚ → ℚ) (iso : ℚ) :
    ∀ (n : ℕ) (p : ℚ × ℚ), ∃ k ≤ n,
      bisectAux f iso (n + 1) p =
        (((bisectStep f iso)^[k] p).1 + ((bisectStep f iso)^[k] p).2) / 2 ∧
      (∀ j < k, ¬ bisectStop f iso ((bisectStep f iso)^[j] p)) ∧
      (bisectStop f iso ((bisectStep f iso)^[k] p) ∨ k = n) := by
  intro n
  induction n with
  | zero =>
    intro p
    refine ⟨0, le_refl 0, ?_, ?_, Or.inr rfl⟩
    · simp [bisectAux]
    · intro j hj; omega
  | succ n ih =>
    intro p
    by_cases hstop : bisectStop f iso p
    · refine ⟨0, Nat.zero_le _, ?_, ?_, Or.inl ?_⟩
      · simp [bisectAux, hstop]
      · intro j hj; omega
      · simpa using hstop
    · obtain ⟨k, hk, heq, hnone, hlast⟩ := ih (bisectStep f iso p)
      refine ⟨k + 1, by omega, ?_, ?_, ?_⟩
      · rw [show n + 1 + 1 = (n + 1) + 1 from rfl]
        rw [bisectAux]
        rw [if_neg (by simp [hstop])]
        rw [heq]
        simp [Function.iterate_succ_apply]
      · intro j hj
        match j with
        | 0 => simpa using hstop
        | j + 1 =>
          rw [Function.iterate_succ_apply]
          exact hnone j (by omega)
      · rcases hlast with h | h
        · exact Or.inl (by rw [Function.iterate_succ_apply]; exact h)
        · exact Or.inr (by omega)

/-- C9: for every volume, ray, interval and isovalue, `bisectionAccuracy`
performs at most 30 bisection iterations and returns the midpoint of the
sub-interval current when the search ends; it ends before the 30th iteration
only when the stopping test (sampled value within 0.01 of the isovalue, or
interval width below 0.01) fires, and no earlier iteration satisfied that
test. -/
theorem bisectionAccuracy_bounded (vol : Volume) (r : Ray) (t0 t1 iso : ℚ) :
    ∃ k ≤ 29,
      bisectionAccuracy vol r t0 t1 iso =
        (((bisectStep (fun c => vol.sample (rayAt r c)) iso)^[k] (t0, t1)).1 +
         ((bisectStep (fun c => vol.sample (rayAt r c)) iso)^[k] (t0, t1)).2) / 2 ∧
      (∀ j < k, ¬ bisectStop (fun c => vol.sample (rayAt r c)) iso
        ((bisectStep (fun c => vol.sample (rayAt r c)) iso)^[j] (t0, t1))) ∧
      (bisectStop (fun c => vol.sample (rayAt r c)) iso
        ((bisectStep (fun c => vol.sample (rayAt r c)) iso)^[k] (t0, t1)) ∨ k = 29) := by
  exact bisectAux_exists (fun c => vol.sample (rayAt r c)) iso 29 (t0, t1)

/-- With `gamma = 0` the combined tracer's loop body coincides with the MIDA
loop body: `beta = 1 - delta * (1 + 0) = 1 - delta`. -/
theorem combinedStep_eq_midaStep (cfg : RenderConfig) (vol : Volume) (gvol : GradientVolume)
    (cam : Camera) (r : Ray) (h : cfg.gamma = 0) :
    combinedStep cfg vol gvol cam r = midaStep cfg vol gvol cam r := by
  funext s t
  unfold combinedStep midaStep
  simp [h]

/-- C1: for every ray, sample step, volume, gradient field and camera, and
every config with `gamma = 0`, the combined tracer returns exactly the MIDA
tracer's color. -/
theorem traceRayCombined_gamma_zero (cfg : RenderConfig) (vol : Volume) (gvol : GradientVolume)
    (cam : Camera) (r : Ray) (step : ℚ) (h : cfg.gamma = 0) :
    traceRayCombined cfg vol gvol cam r step = traceRayMIDA cfg vol gvol cam r step := by
  unfold traceRayCombined traceRayMIDA
  rw [combinedStep_eq_midaStep cfg vol gvol cam r h]
  simp [h]

/-- Witness for C1 at a concrete configuration with `gamma = 0`. -/
theorem traceRayCombined_gamma_zero_witness :
    baseConfig.gamma = 0 ∧
    traceRayCombined baseConfig volZero gvolUnit camO rayUnit 1 =
      traceRayMIDA baseConfig volZero gvolUnit camO rayUnit 1 :=
  ⟨rfl, traceRayCombined_gamma_zero baseConfig volZero gvolUnit camO rayUnit 1 rfl⟩

/-- Counterexample for C6: at origin `(0,0,0)` and sample position `(1,0,0)`
the light vector computed by the tracers (`normalize(samplePos - ray.origin)`)
is `(1,0,0)`, not the normalized sample-to-origin direction `(-1,0,0)`. -/
theorem shadeL_not_sample_to_origin :
    shadeL ⟨0, 0, 0⟩ ⟨1, 0, 0⟩ ≠ vnormalize (Vec3.sub ⟨0, 0, 0⟩ ⟨1, 0, 0⟩) := by
  have h1 : shadeL ⟨0, 0, 0⟩ ⟨1, 0, 0⟩ = ⟨1, 0, 0⟩ := by
    simp [shadeL, vnormalize, Vec3.sub, Vec3.dot, Vec3.smul, ratSqrt]
  have h2 : vnormalize (Vec3.sub ⟨0, 0, 0⟩ ⟨1, 0, 0⟩) = ⟨-1, 0, 0⟩ := by
    simp [vnormalize, Vec3.sub, Vec3.dot, Vec3.smul, ratSqrt]
  rw [h1, h2]
  intro hcontra
  rw [Vec3.mk.injEq] at hcontra
  norm_num at hcontra

/-- C6 (amended): the light vector passed to Phong shading by the composite,
MIDA, combined and shaded isosurface tracers is the normalized direction from
the ray origin toward the sample, i.e. the negation of the sample-to-origin
direction stated by the spec. -/
theorem shadeL_eq_neg_sample_to_origin (o p : Vec3) :
    shadeL o p = Vec3.neg (vnormalize (Vec3.sub o p)) := by
  have harg : Vec3.dot (Vec3.sub p o) (Vec3.sub p o) = Vec3.dot (Vec3.sub o p) (Vec3.sub o p) := by
    simp only [Vec3.dot, Vec3.sub]
    ring_nf
  unfold shadeL vnormalize
  rw [harg]
  unfold Vec3.neg Vec3.smul Vec3.sub
  dsimp only
  rw [Vec3.mk.injEq]
  refine ⟨by ring, by ring, by ring⟩

/-- Truncation toward zero is nonnegative on `(-1, ∞)`. -/
theorem ratTrunc_nonneg (x : ℚ) (h : -1 < x) : 0 ≤ ratTrunc x := by
  unfold ratTrunc
  split_ifs with hx
  · exact Int.floor_nonneg.mpr hx
  · have hfloor : ⌊-x⌋ = 0 := by
      rw [Int.floor_eq_zero_iff]
      constructor
      · linarith [not_le.mp hx]
      · linarith
    simp [hfloor]

/-- Counterexample for C3: with the domain mapping `start = 0, range = 1`,
the scalar value `-1` scales to `-256`; the claimed clamped index is `0`, but
the code performs an out-of-range `float → size_t` conversion of a negative
value (undefined behavior) instead of producing any index. -/
theorem tfIndex_below_domain_counterexample :
    tfIndexOpt baseConfig (-1) = none ∧ specClampIndex baseConfig (-1) = 0 := by
  constructor
  · simp only [tfIndexOpt, baseConfig]
    norm_num
  · simp only [specClampIndex, baseConfig, ratTrunc]
    norm_num

/-- C3 (amended): for a positive transfer-function range and every scalar
value whose scaled image `(value − start)/range × 256` exceeds `-1`, the
index computed by `getTFValue` is defined and equals the spec's clamped
index `clamp(trunc((value − start)/range × 256), 0, 255)`, which lies in
`[0, 255]`; in particular values in the narrow band `(-range/256 + start,
start)` map to index 0, but values further below the domain start do not
(the conversion is undefined there, refuting the original claim). -/
theorem tfIndex_clamped (cfg : RenderConfig) (val : ℚ)
    (h0 : 0 < cfg.tfColorMapIndexRange)
    (h1 : -1 < (val - cfg.tfColorMapIndexStart) / cfg.tfColorMapIndexRange * 256) :
    tfIndexOpt cfg val = some (specClampIndex cfg val) ∧ specClampIndex cfg val ≤ 255 := by
  have hn : 0 ≤ ratTrunc ((val - cfg.tfColorMapIndexStart) / cfg.tfColorMapIndexRange * 256) :=
    ratTrunc_nonneg _ h1
  have hspec : specClampIndex cfg val =
      min (ratTrunc ((val - cfg.tfColorMapIndexStart) / cfg.tfColorMapIndexRange * 256)).toNat 255 := by
    unfold specClampIndex
    omega
  constructor
  · rw [tfIndexOpt_eq_some cfg val (ne_of_gt h0) h1, hspec]
    rfl
  · rw [hspec]
    omega

/-- Witness for C3 at a concrete in-domain value. -/
theorem tfIndex_clamped_witness :
    0 < baseConfig.tfColorMapIndexRange ∧
    -1 < (1/2 - baseConfig.tfColorMapIndexStart) / baseConfig.tfColorMapIndexRange * 256 ∧
    (tfIndexOpt baseConfig (1/2) = some (specClampIndex baseConfig (1/2)) ∧
      specClampIndex baseConfig (1/2) ≤ 255) := by
  refine ⟨by norm_num [baseConfig], by norm_num [baseConfig], ?_⟩
  exact tfIndex_clamped baseConfig (1/2) (by norm_num [baseConfig]) (by norm_num [baseConfig])

/-- C7: with a zero transfer-function range the code divides by zero - the
scaled value is non-finite and the subsequent integer conversion is undefined
behavior; no defensive clamp to a zero-contribution default exists, so the
lookup produces no (finite) value at all. -/
theorem tf_zero_range_not_clamped : getTFValueOpt cfgZeroRange 5 = none := by
  simp [getTFValueOpt, tfIndexOpt, cfgZeroRange]

/-- Counterexample for C4: with apex intensity 1/2, radius 1/4 and gradient
magnitude range [0, 1], the sample exactly at the apex (intensity 1/2,
gradient magnitude = minimum = 0) gets opacity 0, not 1: the apex lies on
both triangle edges and the strict inequalities exclude it. -/
theorem tf2d_apex_counterexample :
    getTF2DOpacity baseConfig gvolUnit (1/2) 0 ≠ 1 := by
  have h : getTF2DOpacity baseConfig gvolUnit (1/2) 0 = 0 := by
    simp only [getTF2DOpacity, baseConfig, gvolUnit]
    norm_num
  rw [h]
  norm_num

/-- C4 (amended): the sample exactly at the apex (intensity `TF2DIntensity`,
gradient magnitude = the field minimum) returns opacity 0 - the apex lies on
the triangle's edges, which the strict inequalities exclude - while samples
strictly inside the triangle on the vertical line through the apex (same
intensity, gradient magnitude strictly between the field minimum and
maximum, positive radius) return opacity 1. -/
theorem tf2d_apex_zero_centerline_one (cfg : RenderConfig) (gvol : GradientVolume) (g : ℚ)
    (hr : 0 < cfg.TF2DRadius) (hg1 : gvol.minMagnitude < g) (hg2 : g < gvol.maxMagnitude) :
    getTF2DOpacity cfg gvol cfg.TF2DIntensity gvol.minMagnitude = 0 ∧
    getTF2DOpacity cfg gvol cfg.TF2DIntensity g = 1 := by
  constructor
  · simp only [getTF2DOpacity]
    split_ifs with hcond hproj
    · exfalso; linarith [hcond.1]
    · exfalso; linarith [hcond.1]
    · rfl
  · simp only [getTF2DOpacity]
    split_ifs with hcond hproj
    · exact absurd hproj (lt_irrefl _)
    · simp [sub_self, abs_zero, zero_div]
    · exact absurd ⟨by linarith, by linarith, hg2, by linarith, by linarith⟩ hcond

/-- Witness for C4 at the concrete fixture configuration. -/
theorem tf2d_apex_zero_centerline_one_witness :
    0 < baseConfig.TF2DRadius ∧ gvolUnit.minMagnitude < 1/2 ∧ (1:ℚ)/2 < gvolUnit.maxMagnitude ∧
    (getTF2DOpacity baseConfig gvolUnit baseConfig.TF2DIntensity gvolUnit.minMagnitude = 0 ∧
      getTF2DOpacity baseConfig gvolUnit baseConfig.TF2DIntensity (1/2) = 1) := by
  refine ⟨by norm_num [baseConfig], by norm_num [gvolUnit], by norm_num [gvolUnit], ?_⟩
  exact tf2d_apex_zero_centerline_one baseConfig gvolUnit (1/2)
    (by norm_num [baseConfig]) (by norm_num [gvolUnit]) (by norm_num [gvolUnit])

/-- The unshaded isosurface loop flag is 1 when some sample exceeds the
isovalue. -/
theorem isoRes_eq_one (vol : Volume) (iso : ℚ) (r : Ray) (ts : List ℚ)
    (h : ∃ t ∈ ts, iso < vol.sample (rayAt r t)) : isoRes vol iso r ts = 1 := by
  induction ts with
  | nil => simp at h
  | cons t ts ih =>
    rw [isoRes]
    split_ifs with ht
    · rfl
    · rcases h with ⟨u, hu, hlt⟩
      rcases List.mem_cons.mp hu with h1 | h1
      · exact absurd (h1 ▸ hlt) ht
      · exact ih ⟨u, h1, hlt⟩

/-- The unshaded isosurface loop flag is 0 when no sample exceeds the
isovalue. -/
theorem isoRes_eq_zero (vol : Volume) (iso : ℚ) (r : Ray) (ts : List ℚ)
    (h : ∀ t ∈ ts, vol.sample (rayAt r t) ≤ iso) : isoRes vol iso r ts = 0 := by
  induction ts with
  | nil => rfl
  | cons t ts ih =>
    rw [isoRes]
    rw [if_neg (not_lt.mpr (h t (List.mem_cons_self t ts)))]
    exact ih fun u hu => h u (List.mem_cons_of_mem t hu)

/-- Counterexample for C5: on the all-zero volume no sample exceeds the
isovalue 95, yet the unshaded isosurface tracer returns opaque black
`(0,0,0,1)`, not the cleared transparent-black background `(0,0,0,0)`. -/
theorem traceRayISO_miss_counterexample :
    (∀ t ∈ sampleTs rayUnit.tmin rayUnit.tmax 1,
      volZero.sample (rayAt rayUnit t) ≤ baseConfig.isoValue) ∧
    traceRayISO baseConfig volZero gvolUnit camO rayUnit 1 ≠ backgroundColor := by
  constructor
  · intro t _
    norm_num [volZero, baseConfig]
  · have hres : isoRes volZero baseConfig.isoValue rayUnit
        (sampleTs rayUnit.tmin rayUnit.tmax 1) = 0 := by
      apply isoRes_eq_zero
      intro t _
      norm_num [volZero, baseConfig]
    unfold traceRayISO
    rw [if_neg (by norm_num [baseConfig])]
    rw [hres]
    intro hcontra
    rw [Vec4.mk.injEq] at hcontra
    norm_num [backgroundColor] at hcontra

/-- C5 (amended): with volume shading disabled, the isosurface tracer returns
the fixed yellow-green surface color `(0.8, 0.8, 0, 1)` whenever some sample
in `[tmin, tmax]` exceeds the isovalue, and returns opaque black `(0,0,0,1)`
- not the cleared transparent-black background `(0,0,0,0)` - when no sample
exceeds it. -/
theorem traceRayISO_unshaded (cfg : RenderConfig) (vol : Volume) (gvol : GradientVolume)
    (cam : Camera) (r : Ray) (step : ℚ) (h : cfg.volumeShading = false) :
    ((∃ t ∈ sampleTs r.tmin r.tmax step, cfg.isoValue < vol.sample (rayAt r t)) →
      traceRayISO cfg vol gvol cam r step = ⟨8/10, 8/10, 0, 1⟩) ∧
    ((∀ t ∈ sampleTs r.tmin r.tmax step, vol.sample (rayAt r t) ≤ cfg.isoValue) →
      traceRayISO cfg vol gvol cam r step = ⟨0, 0, 0, 1⟩) := by
  constructor
  · intro hex
    unfold traceRayISO
    rw [if_neg (by simp [h])]
    rw [isoRes_eq_one vol cfg.isoValue r _ hex]
    simp [isoSurfaceColor]
  · intro hall
    unfold traceRayISO
    rw [if_neg (by simp [h])]
    rw [isoRes_eq_zero vol cfg.isoValue r _ hall]
    simp [isoSurfaceColor]

/-- Witness for C5 at a concrete unshaded configuration. -/
theorem traceRayISO_unshaded_witness :
    baseConfig.volumeShading = false ∧
    (((∃ t ∈ sampleTs rayUnit.tmin rayUnit.tmax 1,
        baseConfig.isoValue < volZero.sample (rayAt rayUnit t)) →
      traceRayISO baseConfig volZero gvolUnit camO rayUnit 1 = ⟨8/10, 8/10, 0, 1⟩) ∧
    ((∀ t ∈ sampleTs rayUnit.tmin rayUnit.tmax 1,
        volZero.sample (rayAt rayUnit t) ≤ baseConfig.isoValue) →
      traceRayISO baseConfig volZero gvolUnit camO rayUnit 1 = ⟨0, 0, 0, 1⟩)) :=
  ⟨rfl, traceRayISO_unshaded baseConfig volZero gvolUnit camO rayUnit 1 rfl⟩

/-- Invariant preservation through a left fold. -/
theorem foldl_inv {α β : Type} (f : α → β → α) (P : α → Prop)
    (hf : ∀ s t, P s → P (f s t)) : ∀ (ts : List β) (s : α), P s → P (ts.foldl f s) := by
  intro ts
  induction ts with
  | nil => intro s hs; exact hs
  | cons t ts ih => intro s hs; exact ih (f s t) (hf s t hs)

/-- Every lookup in a LUT with opacities in `[0,1]` yields an opacity in
`[0,1]`. -/
theorem getTFValue_opacity_mem (cfg : RenderConfig)
    (hop : ∀ i : Fin 256, 0 ≤ (cfg.tfColorMap i).a ∧ (cfg.tfColorMap i).a ≤ 1) (val : ℚ) :
    0 ≤ (getTFValue cfg val).a ∧ (getTFValue cfg val).a ≤ 1 := hop _

/-- The MIDA accumulation `beta*u + (1 - beta*u)*a` with `beta = 1 - d` stays
in `[0,1]` when `d`, `u` and `a` do. -/
theorem midaBlend_bounds (d u a : ℚ) (hd0 : 0 ≤ d) (hd1 : d ≤ 1)
    (hu0 : 0 ≤ u) (hu1 : u ≤ 1) (ha0 : 0 ≤ a) (ha1 : a ≤ 1) :
    0 ≤ (1 - d) * u + (1 - (1 - d) * u) * a ∧ (1 - d) * u + (1 - (1 - d) * u) * a ≤ 1 := by
  have hb0 : 0 ≤ (1 - d) * u := mul_nonneg (by linarith) hu0
  have hb1 : (1 - d) * u ≤ 1 := by nlinarith
  constructor
  · nlinarith
  · nlinarith

/-- Front-to-back compositing `u + (1-u)*a` is monotone in the accumulator
and stays in `[0,1]`. -/
theorem compositeBlend_bounds (u a : ℚ) (hu0 : 0 ≤ u) (hu1 : u ≤ 1)
    (ha0 : 0 ≤ a) (ha1 : a ≤ 1) :
    u ≤ u + (1 - u) * a ∧ 0 ≤ u + (1 - u) * a ∧ u + (1 - u) * a ≤ 1 := by
  have h := mul_nonneg (by linarith : (0:ℚ) ≤ 1 - u) ha0
  refine ⟨by linarith, by linarith, by nlinarith⟩

/-- One composite iteration keeps the accumulated opacity in `[0,1]` and
never decreases it. -/
theorem compositeStep_opacity (cfg : RenderConfig) (vol : Volume) (gvol : GradientVolume)
    (cam : Camera) (r : Ray)
    (hop : ∀ i : Fin 256, 0 ≤ (cfg.tfColorMap i).a ∧ (cfg.tfColorMap i).a ≤ 1)
    (s : CState) (t : ℚ) (h0 : 0 ≤ s.opacity) (h1 : s.opacity ≤ 1) :
    s.opacity ≤ (compositeStep cfg vol gvol cam r s t).opacity ∧
    0 ≤ (compositeStep cfg vol gvol cam r s t).opacity ∧
    (compositeStep cfg vol gvol cam r s t).opacity ≤ 1 := by
  obtain ⟨ha0, ha1⟩ := getTFValue_opacity_mem cfg hop (vol.sample (rayAt r t))
  unfold compositeStep
  split_ifs with hdone hshade
  · exact ⟨le_refl _, h0, h1⟩
  · exact compositeBlend_bounds s.opacity _ h0 h1 ha0 ha1
  · exact compositeBlend_bounds s.opacity _ h0 h1 ha0 ha1

/-- One MIDA iteration keeps the running maximum nonnegative and the
accumulated opacity in `[0,1]`, given in-range samples. -/
theorem midaStep_invariant (cfg : RenderConfig) (vol : Volume) (gvol : GradientVolume)
    (cam : Camera) (r : Ray)
    (hop : ∀ i : Fin 256, 0 ≤ (cfg.tfColorMap i).a ∧ (cfg.tfColorMap i).a ≤ 1)
    (hs : ∀ p : Vec3, 0 ≤ vol.sample p ∧ vol.sample p ≤ vol.maximum) (hM : 0 < vol.maximum)
    (s : MState) (t : ℚ) (hmax : 0 ≤ s.maxVal) (h0 : 0 ≤ s.opacity) (h1 : s.opacity ≤ 1) :
    0 ≤ (midaStep cfg vol gvol cam r s t).maxVal ∧
    0 ≤ (midaStep cfg vol gvol cam r s t).opacity ∧
    (midaStep cfg vol gvol cam r s t).opacity ≤ 1 := by
  unfold midaStep
  dsimp only
  obtain ⟨ha0, ha1⟩ := getTFValue_opacity_mem cfg hop (vol.sample (rayAt r t))
  obtain ⟨hv0, hv1⟩ := hs (rayAt r t)
  refine ⟨le_max_of_le_right hmax, ?_⟩
  split_ifs with hlt
  · have hd0 : 0 ≤ vol.sample (rayAt r t) / vol.maximum - s.maxVal / vol.maximum := by
      have := (div_le_div_iff_of_pos_right hM).mpr hlt.le
      linarith
    have hd1 : vol.sample (rayAt r t) / vol.maximum - s.maxVal / vol.maximum ≤ 1 := by
      have hA : vol.sample (rayAt r t) / vol.maximum ≤ 1 := (div_le_one hM).mpr hv1
      have hB : 0 ≤ s.maxVal / vol.maximum := div_nonneg hmax hM.le
      linarith
    exact midaBlend_bounds _ s.opacity _ hd0 hd1 h0 h1 ha0 ha1
  · have := midaBlend_bounds 0 s.opacity (getTFValue cfg (vol.sample (rayAt r t))).a
      (le_refl 0) (by norm_num) h0 h1 ha0 ha1
    simpa using this

/-- C2 (amended): with per-sample transfer-function opacities in `[0,1]` (and
samples within `[0, maximum]`, positive maximum), the composite tracer's
accumulated opacity after each loop iteration stays in `[0,1]` and is
monotonically non-decreasing from one iteration to the next; the MIDA
tracer's accumulated opacity stays in `[0,1]` after each iteration, but is
not monotone (see the counterexample). -/
theorem composite_mida_opacity (cfg : RenderConfig) (vol : Volume) (gvol : GradientVolume)
    (cam : Camera) (r : Ray) (step : ℚ)
    (hop : ∀ i : Fin 256, 0 ≤ (cfg.tfColorMap i).a ∧ (cfg.tfColorMap i).a ≤ 1)
    (hs : ∀ p : Vec3, 0 ≤ vol.sample p ∧ vol.sample p ≤ vol.maximum)
    (hM : 0 < vol.maximum) (k : ℕ) :
    (0 ≤ (compositeStates cfg vol gvol cam r step k).opacity ∧
     (compositeStates cfg vol gvol cam r step k).opacity ≤ 1 ∧
     (compositeStates cfg vol gvol cam r step k).opacity ≤
       (compositeStates cfg vol gvol cam r step (k + 1)).opacity) ∧
    (0 ≤ (midaStates cfg vol gvol cam r step k).opacity ∧
     (midaStates cfg vol gvol cam r step k).opacity ≤ 1) := by
  have hcstep : ∀ (s : CState) (t : ℚ), (0 ≤ s.opacity ∧ s.opacity ≤ 1) →
      0 ≤ (compositeStep cfg vol gvol cam r s t).opacity ∧
      (compositeStep cfg vol gvol cam r s t).opacity ≤ 1 := by
    intro s t hinv
    obtain ⟨-, h2, h3⟩ := compositeStep_opacity cfg vol gvol cam r hop s t hinv.1 hinv.2
    exact ⟨h2, h3⟩
  have hcinv : ∀ k', 0 ≤ (compositeStates cfg vol gvol cam r step k').opacity ∧
      (compositeStates cfg vol gvol cam r step k').opacity ≤ 1 := by
    intro k'
    exact foldl_inv (compositeStep cfg vol gvol cam r)
      (fun s => 0 ≤ s.opacity ∧ s.opacity ≤ 1) hcstep _ compositeInit
      ⟨by norm_num [compositeInit], by norm_num [compositeInit]⟩
  have hminv : ∀ k', 0 ≤ (midaStates cfg vol gvol cam r step k').maxVal ∧
      0 ≤ (midaStates cfg vol gvol cam r step k').opacity ∧
      (midaStates cfg vol gvol cam r step k').opacity ≤ 1 := by
    intro k'
    refine foldl_inv (midaStep cfg vol gvol cam r)
      (fun s => 0 ≤ s.maxVal ∧ 0 ≤ s.opacity ∧ s.opacity ≤ 1) ?_ _ midaInit
      ⟨by norm_num [midaInit], by norm_num [midaInit], by norm_num [midaInit]⟩
    intro s t hinv
    exact midaStep_invariant cfg vol gvol cam r hop hs hM s t hinv.1 hinv.2.1 hinv.2.2
  refine ⟨⟨(hcinv k).1, (hcinv k).2, ?_⟩, (hminv k).2.1, (hminv k).2.2⟩
  unfold compositeStates
  rw [List.take_succ, List.foldl_append]
  cases hget : (sampleTs r.tmin r.tmax step)[k]? with
  | none => simp
  | some t =>
    simp only [Option.toList_some, List.foldl_cons, List.foldl_nil]
    have hinv := hcinv k
    unfold compositeStates at hinv
    exact (compositeStep_opacity cfg vol gvol cam r hop _ t hinv.1 hinv.2).1

/-- Witness for C2 at a concrete configuration. -/
theorem composite_mida_opacity_witness :
    (∀ i : Fin 256, 0 ≤ (baseConfig.tfColorMap i).a ∧ (baseConfig.tfColorMap i).a ≤ 1) ∧
    (∀ p : Vec3, 0 ≤ volZero.sample p ∧ volZero.sample p ≤ volZero.maximum) ∧
    0 < volZero.maximum ∧
    ((0 ≤ (compositeStates baseConfig volZero gvolUnit camO rayUnit 1 1).opacity ∧
      (compositeStates baseConfig volZero gvolUnit camO rayUnit 1 1).opacity ≤ 1 ∧
      (compositeStates baseConfig volZero gvolUnit camO rayUnit 1 1).opacity ≤
        (compositeStates baseConfig volZero gvolUnit camO rayUnit 1 2).opacity) ∧
     (0 ≤ (midaStates baseConfig volZero gvolUnit camO rayUnit 1 1).opacity ∧
      (midaStates baseConfig volZero gvolUnit camO rayUnit 1 1).opacity ≤ 1)) := by
  refine ⟨fun i => by norm_num [baseConfig], fun p => by norm_num [volZero],
    by norm_num [volZero], ?_⟩
  exact composite_mida_opacity baseConfig volZero gvolUnit camO rayUnit 1
    (fun i => by norm_num [baseConfig]) (fun p => by norm_num [volZero])
    (by norm_num [volZero]) 1

/-- The unit-step loop over `[0, 1]` visits exactly the samples `t = 0` and
`t = 1`. -/
theorem sampleTs_zero_one_one : sampleTs 0 1 1 = [0, 1] := by
  have hc : sampleCount 0 1 1 = 2 := by
    unfold sampleCount
    rw [if_pos (by norm_num)]
    norm_num
    rfl
  unfold sampleTs
  rw [hc]
  simp [List.range_succ]

/-- Counterexample for C2: on a two-sample ray through `volStepX` with the
`tfHalfAtZero` LUT (all opacities in `[0,1]`), the MIDA accumulated opacity
is 1/2 after the first iteration and 0 after the second: at the intensity
ridge `beta = 0` suppresses the prior accumulation, so the accumulated
opacity is not monotonically non-decreasing. -/
theorem mida_opacity_decreases :
    (∀ i : Fin 256, 0 ≤ (cfgMida.tfColorMap i).a ∧ (cfgMida.tfColorMap i).a ≤ 1) ∧
    (∀ p : Vec3, 0 ≤ volStepX.sample p ∧ volStepX.sample p ≤ volStepX.maximum) ∧
    0 < volStepX.maximum ∧
    (midaStates cfgMida volStepX gvolUnit camO rayUnit 1 1).opacity = 1/2 ∧
    (midaStates cfgMida volStepX gvolUnit camO rayUnit 1 2).opacity = 0 ∧
    ¬ ((midaStates cfgMida volStepX gvolUnit camO rayUnit 1 1).opacity ≤
       (midaStates cfgMida volStepX gvolUnit camO rayUnit 1 2).opacity) := by
  have hts : sampleTs rayUnit.tmin rayUnit.tmax 1 = [0, 1] := sampleTs_zero_one_one
  have h1 : (midaStates cfgMida volStepX gvolUnit camO rayUnit 1 1).opacity = 1/2 := by
    unfold midaStates
    rw [hts]
    norm_num [midaStep, midaInit, rayAt, volStepX, cfgMida, baseConfig, tfHalfAtZero,
      getTFValue, tfIndexNat, ratTrunc, Vec3.add, Vec3.smul, sampleFinalColor, rayUnit]
  have h2 : (midaStates cfgMida volStepX gvolUnit camO rayUnit 1 2).opacity = 0 := by
    unfold midaStates
    rw [hts]
    norm_num [midaStep, midaInit, rayAt, volStepX, cfgMida, baseConfig, tfHalfAtZero,
      getTFValue, tfIndexNat, ratTrunc, Vec3.add, Vec3.smul, sampleFinalColor, rayUnit]
  refine ⟨?_, ?_, by norm_num [volStepX], h1, h2, ?_⟩
  · intro i
    by_cases h : i.val = 0
    · simp [cfgMida, baseConfig, tfHalfAtZero, h]
      norm_num
    · simp [cfgMida, baseConfig, tfHalfAtZero, h]
  · intro p
    by_cases h : p.x = 0 <;> simp [volStepX, h]
  · rw [h1, h2]
    norm_num
